import Mathlib

/-!
Verification of the arcade-hub ledger (`git.py`): persistent per-mode
leaderboards, the achievement system, the session tracker, and the JSON
store.  Python dictionaries are modelled as association lists with
Python's ordering semantics (assignment keeps an existing key in place,
a fresh key is appended at the end), floats as rationals, and
`list.sort(key=...)` — a stable ascending sort by key — as
`List.insertionSort` with the key-induced relation (any two stable sorts
by the same key agree pointwise).
-/

/-- `d[k]` as an option: first binding of `k` in the association list. -/
def dictGet? {κ β : Type} [DecidableEq κ] (k : κ) : List (κ × β) → Option β
  | [] => none
  | (k', v) :: r => if k' = k then some v else dictGet? k r

/-- `d[k] = v`: replace in place when the key is present, append otherwise
(Python dict assignment keeps insertion order). -/
def dictSet {κ β : Type} [DecidableEq κ] (k : κ) (v : β) : List (κ × β) → List (κ × β)
  | [] => [(k, v)]
  | (k', v') :: r => if k' = k then (k', v) :: r else (k', v') :: dictSet k v r

/-- `d.setdefault(k, v)`: keep the dict unchanged when `k` is present,
append `(k, v)` otherwise. -/
def dictSetdefault {κ β : Type} [DecidableEq κ] (k : κ) (v : β) (d : List (κ × β)) :
    List (κ × β) :=
  if (dictGet? k d).isSome then d else d ++ [(k, v)]

/-- Python `set.add` on a list model of a set: append when absent. -/
def setAdd (s : List String) (x : String) : List String :=
  if x ∈ s then s else s ++ [x]

/-- `TOP_N = 100` (line 27). -/
def TOP_N : Nat := 100

/-- The key-induced comparison `sort_fn(a) <= sort_fn(b)` used by
`lb.sort(key=sort_fn)`. -/
def keyLE {α K : Type} [LinearOrder K] (sort_fn : α → K) : α → α → Prop :=
  fun a b => sort_fn a ≤ sort_fn b

instance {α K : Type} [LinearOrder K] (f : α → K) : DecidableRel (keyLE f) :=
  fun a b => inferInstanceAs (Decidable (f a ≤ f b))

instance {α K : Type} [LinearOrder K] (f : α → K) : IsTotal α (keyLE f) :=
  ⟨fun a b => le_total (f a) (f b)⟩

instance {α K : Type} [LinearOrder K] (f : α → K) : IsTrans α (keyLE f) :=
  ⟨fun _ _ _ => le_trans⟩

/-- `lb.sort(key=sort_fn)`: Python's stable ascending sort by key,
modelled by the (stable) insertion sort with the key-induced relation. -/
def pySortByKey {α K : Type} [LinearOrder K] (sort_fn : α → K) (l : List α) : List α :=
  l.insertionSort (keyLE sort_fn)

/-- A player record: `{"achievements": [...], "games_played": n}` (line 90). -/
structure Player where
  achievements : List String
  games_played : Nat
deriving DecidableEq, Repr

/-- The in-memory ledger `data`: the `"leaderboards"` dict (game key ↦
mode key ↦ entry list) and the `"players"` dict, generic in the entry
representation as in the source. -/
structure Ledger (α : Type) where
  leaderboards : List (String × List (String × List α))
  players : List (String × Player)
deriving DecidableEq

/-- A Python value used as a mode key: either already a string or an
integer, normalised by `str(mode_key)`. -/
inductive PyKey where
  | pstr (s : String)
  | pint (n : Int)
deriving DecidableEq

/-- `str(mode_key)` (lines 102, 105). -/
def PyKey.toStr : PyKey → String
  | .pstr s => s
  | .pint n => toString n

/-- The stored sequence at `(game_key, mode_key)` (empty when the game or
mode is unseen), as `show_leaderboard_generic` reads it (lines 110-111). -/
def boardAt {α : Type} (data : Ledger α) (game_key mode_key : String) : List α :=
  (dictGet? mode_key ((dictGet? game_key data.leaderboards).getD [])).getD []

/-- `add_leaderboard_entry` (lines 100-107): append the entry at
`(game_key, str(mode_key))` (creating the mode sequence if absent),
re-sort the whole sequence by `sort_fn`, truncate to `TOP_N`, store it
back.  The trailing `write_save(data)` persists the same value and is
outside the in-memory transition. -/
def add_leaderboard_entry {α K : Type} [LinearOrder K] (data : Ledger α)
    (game_key : String) (mode_key : PyKey) (entry : α) (sort_fn : α → K) : Ledger α :=
  let lbs := (dictGet? game_key data.leaderboards).getD []
  let lb := (dictGet? mode_key.toStr lbs).getD []
  let lb2 := (pySortByKey sort_fn (lb ++ [entry])).take TOP_N
  let lbs2 := dictSet mode_key.toStr lb2 lbs
  { data with leaderboards := dictSet game_key lbs2 data.leaderboards }

/-- `ensure_player` (lines 87-90): create the default player record if the
name is absent; the `"players"` dict itself always exists in the model. -/
def ensure_player {α : Type} (data : Ledger α) (name : String) : Ledger α :=
  if (dictGet? name data.players).isSome then data
  else { data with players := data.players ++ [(name, ⟨[], 0⟩)] }

/-- `award_achievement` (lines 92-98): ensure the player exists, and when
`ach_key` is not yet held append it and print a one-time notification
(returned here as the list of emitted messages; the `write_save` persists
the same value). -/
def award_achievement {α : Type} (data : Ledger α) (player ach_key ach_name : String) :
    Ledger α × List String :=
  let data := ensure_player data player
  match dictGet? player data.players with
  | some p =>
      if ach_key ∈ p.achievements then (data, [])
      else ({ data with
                players := dictSet player { p with achievements := p.achievements ++ [ach_key] }
                  data.players },
            [s!"🏆 Achievement unlocked: {ach_name}!"])
  | none => (data, [])

/-- A parsed JSON value as `json.load` can produce it.  Objects are
association lists of string keys in insertion order (Python 3 dicts);
numbers are rationals (floats round-trip exactly through `json.dump` /
`json.load`, so their exact value is immaterial here). -/
inductive JVal where
  | jnull
  | jbool (b : Bool)
  | jnum (q : ℚ)
  | jstr (s : String)
  | jarr (xs : List JVal)
  | jobj (kvs : List (String × JVal))

/-- The seven fixed game keys, in the order of `BASE_SAVE["leaderboards"]`
(lines 46-52). -/
def gameKeys : List String :=
  ["guess_the_number", "reaction_game", "gibberish_typing", "number_memory",
   "sequence_tap", "word_memory", "math_speed"]

/-- `BASE_SAVE` (lines 44-55) as a JSON object. -/
def baseSave : JVal :=
  .jobj [("leaderboards", .jobj (gameKeys.map fun k => (k, .jobj []))), ("players", .jobj [])]

/-- The state of the backing `highscores.json` document as `read_save`
observes it: the file is missing, its content does not parse, or it
parses to a JSON value. -/
inductive FileState where
  | missing
  | unparseable
  | parsed (v : JVal)

/-- The `# ensure keys` block of `read_save` (lines 66-70):
`data.setdefault("leaderboards", {})`, then
`data["leaderboards"].setdefault(key, {})` for each of the seven game
keys, then `data.setdefault("players", {})`.  Attribute access on a
non-object raises `AttributeError`, modelled as `.error`. -/
def ensureKeys (v : JVal) : Except String JVal :=
  match v with
  | .jobj kvs =>
      let kvs := dictSetdefault "leaderboards" (.jobj []) kvs
      match dictGet? "leaderboards" kvs with
      | some (.jobj gs) =>
          let gs := gameKeys.foldl (fun gs k => dictSetdefault k (.jobj []) gs) gs
          let kvs := dictSet "leaderboards" (.jobj gs) kvs
          .ok (.jobj (dictSetdefault "players" (.jobj []) kvs))
      | some _ => .error "AttributeError"
      | none => .error "AttributeError"
  | _ => .error "AttributeError"

/-- `read_save` (lines 57-71).  A missing file is written and `BASE_SAVE`
is returned at once (line 60, before the ensure-keys block); a parse
failure substitutes a fresh copy of `BASE_SAVE`, which then flows through
the ensure-keys block like any parsed document. -/
def read_save : FileState → Except String JVal
  | .missing => .ok baseSave
  | .unparseable => ensureKeys baseSave
  | .parsed v => ensureKeys v

/-- `write_save` (lines 73-75) followed by a later `read_save` of the same
file: `json.dump` serialises the value and `json.load` parses the same
value back (exact round-trip for the object/array/string/number shapes
the program stores), so the load observes `FileState.parsed d`. -/
def saveThenLoad (d : JVal) : Except String JVal :=
  read_save (.parsed d)

/-- One leaderboard entry, as the per-game dicts built at lines 241, 306,
367, 445, 497, 554 and 612; the constructor tells which game produced it
and carries that game's fields (`name`, metrics, `ts`). -/
inductive Entry where
  | guess (name : String) (attempts : Nat) (time : ℚ) (ts : Int)
  | reaction (name : String) (total_time : ℚ) (per_round : List ℚ) (ts : Int)
  | gib (name : String) (total_time : ℚ) (words : Nat) (ts : Int)
  | nm (name : String) (max_length : Nat) (total_time : ℚ) (ts : Int)
  | seqTap (name : String) (total_time : ℚ) (ts : Int)
  | wm (name : String) (correct : Nat) (total_time : ℚ) (ts : Int)
  | ms (name : String) (total_time : ℚ) (problems : Nat) (ts : Int)
deriving DecidableEq

/-- `lambda r: (r["attempts"], r["time"])` (line 243); within one mode the
sequence only ever holds `guess` entries, other shapes get a junk key. -/
def sortFnGuess : Entry → Nat ×ₗ ℚ
  | .guess _ attempts time _ => toLex (attempts, time)
  | _ => toLex (0, 0)

/-- `lambda r: r["total_time"]` (lines 307, 368, 498, 613); within one mode
the sequence only ever holds entries carrying `total_time`. -/
def sortFnTotalTime : Entry → ℚ
  | .reaction _ t _ _ => t
  | .gib _ t _ _ => t
  | .seqTap _ t _ => t
  | .ms _ t _ _ => t
  | _ => 0

/-- `lambda r: (-r["max_length"], r["total_time"])` (line 447). -/
def sortFnNM : Entry → Int ×ₗ ℚ
  | .nm _ ml tt _ => toLex (-(ml : Int), tt)
  | _ => toLex (0, 0)

/-- `lambda r: (-r["correct"], r["total_time"])` (line 556). -/
def sortFnWM : Entry → Int ×ₗ ℚ
  | .wm _ c tt _ => toLex (-(c : Int), tt)
  | _ => toLex (0, 0)

/-- `SessionTracker` (lines 157-163): ephemeral per-process counters. -/
structure Session where
  player : Option String
  games_this_session : List String
  consecutive_gtn_wins : Nat
  perfect_gibberish_streak : Nat
  total_games_played : Nat
deriving DecidableEq, Repr

/-- `SessionTracker(player=None)` as built at line 682. -/
def Session.init : Session :=
  ⟨none, [], 0, 0, 0⟩

/-- An `if cond: award_achievement(...)` statement: the data after it and
the notifications it printed. -/
def awardIf (c : Prop) [Decidable c] (data : Ledger Entry) (player ach_key ach_name : String) :
    Ledger Entry × List String :=
  if c then award_achievement data player ach_key ach_name else (data, [])

/-- The interactive outcome of one Guess-the-Number play: the name typed,
the chosen mode key, and the attempts/elapsed-time the loop produced. -/
structure GuessOutcome where
  player : String
  mode_key : String
  attempts : Nat
  elapsed : ℚ
  ts : Int
deriving DecidableEq

/-- `play_guess_the_number` (lines 194-245), as a function of the
interactive outcome; returns the updated data, session, and the
notifications printed by `award_achievement`. -/
def play_guess_the_number (data : Ledger Entry) (session : Session) (o : GuessOutcome) :
    Ledger Entry × Session × List String :=
  let d0 := ensure_player data o.player
  let session := { session with player := some o.player }
  let r1 := awardIf (o.attempts = 1) d0 o.player "gtn_first_try" "Lucky First Guess (1 attempt)"
  let r2 := awardIf (o.elapsed < 5) r1.1 o.player "gtn_speed_demon" "Speed Demon (<5s)"
  let r3 := awardIf (o.attempts < 3) r2.1 o.player "gtn_sniper" "Sniper (<3 attempts)"
  let r4 := awardIf (o.attempts ≥ 20) r3.1 o.player "gtn_persistent" "Persistent (20+ attempts)"
  let r5 := awardIf (o.mode_key = "7") r4.1 o.player "gtn_nightmare"
    "Impossible Odds — Beat Nightmare range"
  let session := { session with
    games_this_session := setAdd session.games_this_session "guess",
    total_games_played := session.total_games_played + 1,
    consecutive_gtn_wins := session.consecutive_gtn_wins + 1 }
  let r6 := awardIf (session.consecutive_gtn_wins ≥ 5) r5.1 o.player "gtn_iron_streak_5"
    "Iron Streak — 5 wins in a row"
  let entry := Entry.guess o.player o.attempts o.elapsed o.ts
  let dF := add_leaderboard_entry r6.1 "guess_the_number" (.pstr o.mode_key) entry sortFnGuess
  (dF, session, r1.2 ++ r2.2 ++ r3.2 ++ r4.2 ++ r5.2 ++ r6.2)

/-- The interactive outcome of one Reaction play: chosen round count and
the per-round reaction times measured by the loop. -/
structure ReactionOutcome where
  player : String
  rounds : Nat
  per_round : List ℚ
  ts : Int
deriving DecidableEq

/-- `play_reaction` (lines 255-309): `total`, `any_below_200` and
`all_below_500` are accumulated over the rounds exactly as the loop does. -/
def play_reaction (data : Ledger Entry) (session : Session) (o : ReactionOutcome) :
    Ledger Entry × Session × List String :=
  let d0 := ensure_player data o.player
  let session := { session with player := some o.player }
  let total : ℚ := o.per_round.foldl (· + ·) 0
  let any_below_200 := o.per_round.any fun dt => dt < 0.2
  let all_below_500 := o.per_round.all fun dt => dt < 0.5
  let r1 := awardIf (any_below_200 = true) d0 o.player "rx_lightning"
    "Lightning Reflexes (<0.200s single)"
  let r2 := awardIf (all_below_500 = true) r1.1 o.player "rx_consistent"
    "Consistent Pro (all <0.500s)"
  let r3 := awardIf (o.rounds = 25) r2.1 o.player "rx_marathon"
    "Marathon Reflexes (complete 25 rounds)"
  let session := { session with
    games_this_session := setAdd session.games_this_session "reaction",
    total_games_played := session.total_games_played + 1 }
  let entry := Entry.reaction o.player total o.per_round o.ts
  let dF := add_leaderboard_entry r3.1 "reaction_game" (.pint o.rounds) entry sortFnTotalTime
  (dF, session, r1.2 ++ r2.2 ++ r3.2)

/-- The interactive outcome of one Gibberish Typing play: chosen word
count, the generated targets, the tokens the player typed
(`typed.split()`), and the elapsed time. -/
structure GibberishOutcome where
  player : String
  words : Nat
  targets : List String
  typed_tokens : List String
  elapsed : ℚ
  ts : Int
deriving DecidableEq

/-- `play_gibberish` (lines 327-385): `perfect = (typed_tokens == targets)`;
a perfect run may unlock achievements and is inserted into the
leaderboard, an imperfect run only resets the session streak. -/
def play_gibberish (data : Ledger Entry) (session : Session) (o : GibberishOutcome) :
    Ledger Entry × Session × List String :=
  let d0 := ensure_player data o.player
  let session := { session with player := some o.player }
  let perfect := o.typed_tokens = o.targets
  let session := { session with
    games_this_session := setAdd session.games_this_session "gibberish",
    total_games_played := session.total_games_played + 1 }
  if perfect then
    let r1 := award_achievement d0 o.player "gt_perfect_accuracy" "Perfect Accuracy (100%)"
    let avg := o.elapsed / max 1 (o.words : ℚ)
    let r2 := awardIf (avg < 1) r1.1 o.player "gt_typing_machine" "Typing Machine (<1s/word avg)"
    let session := { session with
      perfect_gibberish_streak := session.perfect_gibberish_streak + 1 }
    let r3 := awardIf (session.perfect_gibberish_streak ≥ 3) r2.1 o.player "gt_flawless_streak3"
      "Flawless Streak — 3 perfects in a row"
    let entry := Entry.gib o.player o.elapsed o.words o.ts
    let dF := add_leaderboard_entry r3.1 "gibberish_typing" (.pstr (toString o.words)) entry
      sortFnTotalTime
    (dF, session, r1.2 ++ r2.2 ++ r3.2)
  else
    let session := { session with perfect_gibberish_streak := 0 }
    (d0, session, [])

/-- The interactive outcome of one Number Memory play: the chosen mode,
the number of rounds answered correctly before the final wrong answer,
and the per-answer times (one per round, the failing round included). -/
structure NMOutcome where
  player : String
  mode_choice : String
  correct_rounds : Nat
  times : List ℚ
  ts : Int
deriving DecidableEq

/-- `start_len = 2 if mode_choice=="easy_2" else 4 if mode_choice=="normal_4" else 6`
(line 415). -/
def nmStartLen (mode_choice : String) : Nat :=
  if mode_choice = "easy_2" then 2 else if mode_choice = "normal_4" then 4 else 6

/-- The `while True` round loop of `play_number_memory` (lines 420-450),
recursing on the number of correct rounds still to come.  Each round
consumes one answer time; a correct round bumps `max_len`, may unlock the
two achievements, and increments the session's `total_games_played`; the
final wrong round stores the leaderboard entry with
`achieved = max_len - 1`. -/
def nmLoop (data : Ledger Entry) (session : Session) (player mode_choice : String)
    (round_no max_len : Nat) (total_time : ℚ) (ts : Int) :
    Nat → List ℚ → Ledger Entry × Session × List String
  | Nat.succ c, times =>
      let dt := times.headD 0
      let total_time := total_time + dt
      let max_len := max_len + 1
      let r1 := awardIf (max_len - 1 ≥ 10) data player "nm_brain_of_steel"
        "Brain of Steel (10-digit recall)"
      let r2 := awardIf (round_no ≥ 5) r1.1 player "nm_flash_recall" "Flash Recall (5 in a row)"
      let session := { session with total_games_played := session.total_games_played + 1 }
      let rest := nmLoop r2.1 session player mode_choice (round_no + 1) max_len
        total_time ts c (times.tail)
      (rest.1, rest.2.1, r1.2 ++ r2.2 ++ rest.2.2)
  | 0, times =>
      let dt := times.headD 0
      let total_time := total_time + dt
      let achieved := max_len - 1
      let entry := Entry.nm player achieved total_time ts
      let dF := add_leaderboard_entry data "number_memory" (.pstr mode_choice) entry sortFnNM
      (dF, session, [])

/-- `play_number_memory` (lines 396-450). -/
def play_number_memory (data : Ledger Entry) (session : Session) (o : NMOutcome) :
    Ledger Entry × Session × List String :=
  let data := ensure_player data o.player
  let session := { session with player := some o.player }
  nmLoop data session o.player o.mode_choice 1 (nmStartLen o.mode_choice) 0 o.ts
    o.correct_rounds o.times

/-- The interactive outcome of one Sequence Tap play: chosen step count,
the expected string `"".join(seq)`, what the player typed (after
`.strip().upper()`), and the elapsed time. -/
structure SeqOutcome where
  player : String
  steps : Nat
  expected : String
  typed : String
  elapsed : ℚ
  ts : Int
deriving DecidableEq

/-- `play_sequence_tap` (lines 460-503): a correct run may unlock
`st_pattern_pro` (only for 20 steps) and is inserted; a wrong run does
nothing; `total_games_played` is incremented either way, and the game is
never added to `games_this_session`. -/
def play_sequence_tap (data : Ledger Entry) (session : Session) (o : SeqOutcome) :
    Ledger Entry × Session × List String :=
  let d0 := ensure_player data o.player
  let session := { session with player := some o.player }
  let correct := o.typed = o.expected
  let r :=
    if correct then
      let r1 := awardIf (o.steps = 20) d0 o.player "st_pattern_pro"
        "Pattern Pro (complete 20-step)"
      let entry := Entry.seqTap o.player o.elapsed o.ts
      let dF := add_leaderboard_entry r1.1 "sequence_tap" (.pstr (toString o.steps)) entry
        sortFnTotalTime
      (dF, r1.2)
    else (d0, [])
  let session := { session with total_games_played := session.total_games_played + 1 }
  (r.1, session, r.2)

/-- The interactive outcome of one Word Memory play: chosen word count,
the sampled words, the words the player typed, and the elapsed time. -/
structure WMOutcome where
  player : String
  words_count : Nat
  words : List String
  typed : List String
  elapsed : ℚ
  ts : Int
deriving DecidableEq

/-- `play_word_memory` (lines 520-558): `correct_count` counts positionwise
matches of `zip(words, typed)`. -/
def play_word_memory (data : Ledger Entry) (session : Session) (o : WMOutcome) :
    Ledger Entry × Session × List String :=
  let d0 := ensure_player data o.player
  let session := { session with player := some o.player }
  let correct_count := (o.words.zip o.typed).countP fun ab => ab.1 = ab.2
  let session := { session with total_games_played := session.total_games_played + 1 }
  let r1 := awardIf (correct_count = o.words_count ∧ o.words_count ≥ 15) d0 o.player
    "wm_word_wizard" "Word Wizard (15 words)"
  let entry := Entry.wm o.player correct_count o.elapsed o.ts
  let dF := add_leaderboard_entry r1.1 "word_memory" (.pstr (toString o.words_count)) entry
    sortFnWM
  (dF, session, r1.2)

/-- The interactive outcome of one Math Speed play: chosen problem count
and the elapsed time (every problem is eventually answered correctly). -/
structure MSOutcome where
  player : String
  problems : Nat
  elapsed : ℚ
  ts : Int
deriving DecidableEq

/-- `play_math_speed` (lines 568-615). -/
def play_math_speed (data : Ledger Entry) (session : Session) (o : MSOutcome) :
    Ledger Entry × Session × List String :=
  let d0 := ensure_player data o.player
  let session := { session with player := some o.player }
  let r1 := awardIf (o.problems ≥ 20 ∧ o.elapsed < 30) d0 o.player "ms_lightning_calc"
    "Lightning Calculator (20 in <30s)"
  let r2 := awardIf (o.problems = 50) r1.1 o.player "ms_math_genius" "Math Genius (perfect on 50)"
  let session := { session with total_games_played := session.total_games_played + 1 }
  let entry := Entry.ms o.player o.elapsed o.problems o.ts
  let dF := add_leaderboard_entry r2.1 "math_speed" (.pstr (toString o.problems)) entry
    sortFnTotalTime
  (dF, session, r1.2 ++ r2.2)

/-- One completed play of any of the seven games, with its interactive
outcome. -/
inductive PlayStep where
  | guess (o : GuessOutcome)
  | reaction (o : ReactionOutcome)
  | gibberish (o : GibberishOutcome)
  | numberMemory (o : NMOutcome)
  | sequenceTap (o : SeqOutcome)
  | wordMemory (o : WMOutcome)
  | mathSpeed (o : MSOutcome)
deriving DecidableEq

/-- Dispatch of the main menu (lines 698-712) for one play. -/
def runPlay (ds : Ledger Entry × Session) : PlayStep → Ledger Entry × Session × List String
  | .guess o => play_guess_the_number ds.1 ds.2 o
  | .reaction o => play_reaction ds.1 ds.2 o
  | .gibberish o => play_gibberish ds.1 ds.2 o
  | .numberMemory o => play_number_memory ds.1 ds.2 o
  | .sequenceTap o => play_sequence_tap ds.1 ds.2 o
  | .wordMemory o => play_word_memory ds.1 ds.2 o
  | .mathSpeed o => play_math_speed ds.1 ds.2 o

/-- Any sequence of completed plays driven from the main menu, starting
from the given data and session. -/
def runPlays (data : Ledger Entry) (session : Session) : List PlayStep → Ledger Entry × Session
  | [] => (data, session)
  | s :: rest =>
      let r := runPlay (data, session) s
      runPlays r.1 r.2.1 rest

/-- The ledger the program starts from on a fresh install: `BASE_SAVE`,
all seven game boards empty and no players. -/
def initialLedger : Ledger Entry :=
  ⟨gameKeys.map fun k => (k, []), []⟩

/-- The achievement keys an `award_achievement` call site actually passes
somewhere in the program (lines 223-238, 296-300, 356-365, 436-438, 496,
552, 606-609).  The cross-game keys of the catalog (`cg_*`), among them
`"cg_grinder_50"`, appear in `ACH_LIST` only and are never awarded. -/
def wiredAchKeys : List String :=
  ["gtn_first_try", "gtn_speed_demon", "gtn_sniper", "gtn_persistent", "gtn_nightmare",
   "gtn_iron_streak_5", "rx_lightning", "rx_consistent", "rx_marathon",
   "gt_perfect_accuracy", "gt_typing_machine", "gt_flawless_streak3",
   "nm_brain_of_steel", "nm_flash_recall", "st_pattern_pro", "wm_word_wizard",
   "ms_lightning_calc", "ms_math_genius"]

/-- How the ledger operations may change one player record:
`games_played` is never modified, achievement keys are never removed,
uniqueness of keys is preserved, and any new key comes from
`wiredAchKeys`. -/
def PlayerEvol (p p' : Player) : Prop :=
  p'.games_played = p.games_played ∧
  (∀ k, k ∈ p.achievements → k ∈ p'.achievements) ∧
  (p.achievements.Nodup → p'.achievements.Nodup) ∧
  (∀ k, k ∈ p'.achievements → k ∈ p.achievements ∨ k ∈ wiredAchKeys)

/-- How the ledger operations may change the players map: present players
stay present, and every record of the result evolved (per `PlayerEvol`)
from the corresponding old record, or from the default record
`{"achievements": [], "games_played": 0}` if the player was created. -/
def LedgerEvol (d d' : Ledger Entry) : Prop :=
  (∀ n, (dictGet? n d.players).isSome → (dictGet? n d'.players).isSome) ∧
  ∀ n p', dictGet? n d'.players = some p' →
    PlayerEvol ((dictGet? n d.players).getD ⟨[], 0⟩) p'

theorem dictGet?_dictSet_self {κ β : Type} [DecidableEq κ] (k : κ) (v : β)
    (d : List (κ × β)) : dictGet? k (dictSet k v d) = some v := by
  induction d with
  | nil => simp [dictGet?, dictSet]
  | cons kv r ih =>
      obtain ⟨k', v'⟩ := kv
      by_cases h : k' = k <;> simp [dictGet?, dictSet, h, ih]

theorem dictGet?_dictSet_ne {κ β : Type} [DecidableEq κ] {k k' : κ} (v : β)
    (d : List (κ × β)) (h : k' ≠ k) : dictGet? k' (dictSet k v d) = dictGet? k' d := by
  induction d with
  | nil => simp [dictGet?, dictSet, Ne.symm h]
  | cons kv r ih =>
      obtain ⟨k'', v'⟩ := kv
      by_cases h2 : k'' = k
      · subst h2
        simp [dictGet?, dictSet, Ne.symm h]
      · simp [dictGet?, dictSet, h2, ih]

theorem dictSet_of_get_eq {κ β : Type} [DecidableEq κ] {k : κ} {v : β}
    {d : List (κ × β)} (h : dictGet? k d = some v) : dictSet k v d = d := by
  induction d with
  | nil => simp [dictGet?] at h
  | cons kv r ih =>
      obtain ⟨k', v'⟩ := kv
      by_cases h2 : k' = k
      · subst h2
        simp [dictGet?] at h
        simp [dictSet, h]
      · simp only [dictGet?, if_neg h2] at h
        simp [dictSet, h2, ih h]

theorem dictGet?_append {κ β : Type} [DecidableEq κ] (k : κ) (d d' : List (κ × β)) :
    dictGet? k (d ++ d') = (dictGet? k d).or (dictGet? k d') := by
  induction d with
  | nil => simp [dictGet?]
  | cons kv r ih =>
      obtain ⟨k', v'⟩ := kv
      by_cases h : k' = k <;> simp [dictGet?, h, ih]

theorem dictGet?_dictSetdefault_isSome {κ β : Type} [DecidableEq κ] (k : κ) (v : β)
    (d : List (κ × β)) : (dictGet? k (dictSetdefault k v d)).isSome := by
  unfold dictSetdefault
  split
  · assumption
  · next h =>
      rw [dictGet?_append]
      cases hg : dictGet? k d with
      | some w => simp [hg] at h
      | none => simp [dictGet?]

theorem dictGet?_dictSetdefault_ne {κ β : Type} [DecidableEq κ] {k k' : κ} (v : β)
    (d : List (κ × β)) (h : k' ≠ k) :
    dictGet? k' (dictSetdefault k v d) = dictGet? k' d := by
  unfold dictSetdefault
  split
  · rfl
  · rw [dictGet?_append]
    simp [dictGet?, Ne.symm h]

theorem dictSetdefault_of_isSome {κ β : Type} [DecidableEq κ] {k : κ} (v : β)
    {d : List (κ × β)} (h : (dictGet? k d).isSome) : dictSetdefault k v d = d := by
  unfold dictSetdefault
  simp [h]

/-- The board the insert writes: append, stable-sort, truncate. -/
theorem boardAt_add_self {α K : Type} [LinearOrder K] (data : Ledger α)
    (g : String) (m : PyKey) (e : α) (f : α → K) :
    boardAt (add_leaderboard_entry data g m e f) g m.toStr =
      (pySortByKey f (boardAt data g m.toStr ++ [e])).take TOP_N := by
  unfold boardAt add_leaderboard_entry
  simp [dictGet?_dictSet_self]

/-- Other games' mode maps are untouched by an insert. -/
theorem boardAt_add_ne_game {α K : Type} [LinearOrder K] (data : Ledger α)
    {g g' : String} (m : PyKey) (m' : String) (e : α) (f : α → K) (h : g' ≠ g) :
    boardAt (add_leaderboard_entry data g m e f) g' m' = boardAt data g' m' := by
  unfold boardAt add_leaderboard_entry
  simp [dictGet?_dictSet_ne _ _ h]

/-- Other modes of the same game are untouched by an insert. -/
theorem boardAt_add_ne_mode {α K : Type} [LinearOrder K] (data : Ledger α)
    (g : String) {m : PyKey} {m' : String} (e : α) (f : α → K) (h : m' ≠ m.toStr) :
    boardAt (add_leaderboard_entry data g m e f) g m' = boardAt data g m' := by
  unfold boardAt add_leaderboard_entry
  simp [dictGet?_dictSet_self, dictGet?_dictSet_ne _ _ h]

theorem players_add_leaderboard_entry {α K : Type} [LinearOrder K] (data : Ledger α)
    (g : String) (m : PyKey) (e : α) (f : α → K) :
    (add_leaderboard_entry data g m e f).players = data.players := rfl

theorem length_pySortByKey {α K : Type} [LinearOrder K] (f : α → K) (l : List α) :
    (pySortByKey f l).length = l.length :=
  List.length_insertionSort _ l

theorem sorted_pySortByKey {α K : Type} [LinearOrder K] (f : α → K) (l : List α) :
    (pySortByKey f l).Sorted (keyLE f) :=
  List.sorted_insertionSort _ l

theorem pySortByKey_of_sorted {α K : Type} [LinearOrder K] {f : α → K} {l : List α}
    (h : l.Sorted (keyLE f)) : pySortByKey f l = l :=
  h.insertionSort_eq

theorem sorted_take {α K : Type} [LinearOrder K] {f : α → K} {l : List α}
    (h : l.Sorted (keyLE f)) (n : Nat) : (l.take n).Sorted (keyLE f) :=
  List.Pairwise.sublist (List.take_sublist n l) h

/-- One insert on the board at `(g, str m)`, at the list level. -/
theorem boardAt_foldl_add {α K : Type} [LinearOrder K] (f : α → K) (g : String) (m : PyKey)
    (d : Ledger α) (es : List α) (e : α) :
    boardAt ((es ++ [e]).foldl (fun dd x => add_leaderboard_entry dd g m x f) d) g m.toStr =
      (pySortByKey f
        (boardAt (es.foldl (fun dd x => add_leaderboard_entry dd g m x f) d) g m.toStr ++ [e])
        ).take TOP_N := by
  rw [List.foldl_append]
  simpa using boardAt_add_self (es.foldl (fun dd x => add_leaderboard_entry dd g m x f) d) g m e f

/-- C1.  For every game key, mode key and sequence of inserts into that
`(game, mode)` board starting from an empty (or unseen) board, the
stored sequence after the inserts has length `min(k, 100)` (`k` = number
of inserts so far — instantiating `es` with each prefix of the insert
sequence gives the state after every intermediate insert) and is sorted
by that mode's comparator. -/
theorem leaderboard_bound_and_sorted {α K : Type} [LinearOrder K] (f : α → K)
    (g : String) (m : PyKey) (d : Ledger α) (es : List α)
    (h0 : boardAt d g m.toStr = []) :
    (boardAt (es.foldl (fun dd e => add_leaderboard_entry dd g m e f) d) g m.toStr).length
      = min es.length TOP_N ∧
    (boardAt (es.foldl (fun dd e => add_leaderboard_entry dd g m e f) d) g m.toStr).Sorted
      (keyLE f) := by
  induction es using List.reverseRecOn with
  | nil => simp [h0, List.Sorted]
  | append_singleton es e ih =>
      rw [boardAt_foldl_add]
      constructor
      · rw [List.length_take, length_pySortByKey, List.length_append]
        have := ih.1
        simp only [List.length_append, List.length_singleton]
        omega
      · exact sorted_take (sorted_pySortByKey f _) TOP_N

/-- Closes the hypothesis of `leaderboard_bound_and_sorted` at a concrete
board: three reaction entries inserted into the empty `("reaction_game",
"5")` board. -/
theorem leaderboard_bound_and_sorted_witness :
    (boardAt
      (([Entry.reaction "A" 9 [] 0, Entry.reaction "B" 4 [] 1, Entry.reaction "C" 6 [] 2].foldl
        (fun dd e => add_leaderboard_entry dd "reaction_game" (.pint 5) e sortFnTotalTime)
        initialLedger)) "reaction_game" (PyKey.pint 5).toStr).length = min 3 TOP_N ∧
    (boardAt
      (([Entry.reaction "A" 9 [] 0, Entry.reaction "B" 4 [] 1, Entry.reaction "C" 6 [] 2].foldl
        (fun dd e => add_leaderboard_entry dd "reaction_game" (.pint 5) e sortFnTotalTime)
        initialLedger)) "reaction_game" (PyKey.pint 5).toStr).Sorted (keyLE sortFnTotalTime) :=
  leaderboard_bound_and_sorted sortFnTotalTime "reaction_game" (.pint 5) initialLedger
    [Entry.reaction "A" 9 [] 0, Entry.reaction "B" 4 [] 1, Entry.reaction "C" 6 [] 2] rfl

/-- C10.  Frame property of `add_leaderboard_entry`: the players map is
untouched, every other game's mode map and every other mode's sequence in
the same game are untouched, and the write is keyed at `str(mode_key)`
(the normalised mode key), where it appends, re-sorts and truncates. -/
theorem add_leaderboard_entry_frame {α K : Type} [LinearOrder K] (data : Ledger α)
    (g : String) (m : PyKey) (e : α) (f : α → K) :
    (add_leaderboard_entry data g m e f).players = data.players ∧
    (∀ g' m', g' ≠ g →
      boardAt (add_leaderboard_entry data g m e f) g' m' = boardAt data g' m') ∧
    (∀ m', m' ≠ m.toStr →
      boardAt (add_leaderboard_entry data g m e f) g m' = boardAt data g m') ∧
    boardAt (add_leaderboard_entry data g m e f) g m.toStr =
      (pySortByKey f (boardAt data g m.toStr ++ [e])).take TOP_N :=
  ⟨players_add_leaderboard_entry data g m e f,
   fun _ m' hg => boardAt_add_ne_game data m m' e f hg,
   fun _ hm => boardAt_add_ne_mode data g e f hm,
   boardAt_add_self data g m e f⟩

/-- Instantiates `add_leaderboard_entry_frame` at an integer mode key
(`str(5) = "5"`), a foreign game, and a foreign mode of the same game. -/
theorem add_leaderboard_entry_frame_witness :
    (add_leaderboard_entry initialLedger "reaction_game" (.pint 5)
      (Entry.reaction "A" 9 [] 0) sortFnTotalTime).players = initialLedger.players ∧
    boardAt (add_leaderboard_entry initialLedger "reaction_game" (.pint 5)
      (Entry.reaction "A" 9 [] 0) sortFnTotalTime) "math_speed" "5" =
      boardAt initialLedger "math_speed" "5" ∧
    boardAt (add_leaderboard_entry initialLedger "reaction_game" (.pint 5)
      (Entry.reaction "A" 9 [] 0) sortFnTotalTime) "reaction_game" "10" =
      boardAt initialLedger "reaction_game" "10" ∧
    boardAt (add_leaderboard_entry initialLedger "reaction_game" (.pint 5)
      (Entry.reaction "A" 9 [] 0) sortFnTotalTime) "reaction_game" "5" =
      (pySortByKey sortFnTotalTime
        (boardAt initialLedger "reaction_game" "5" ++ [Entry.reaction "A" 9 [] 0])).take TOP_N :=
  ⟨(add_leaderboard_entry_frame initialLedger "reaction_game" (.pint 5)
      (Entry.reaction "A" 9 [] 0) sortFnTotalTime).1,
   (add_leaderboard_entry_frame initialLedger "reaction_game" (.pint 5)
      (Entry.reaction "A" 9 [] 0) sortFnTotalTime).2.1 "math_speed" "5" (by decide),
   (add_leaderboard_entry_frame initialLedger "reaction_game" (.pint 5)
      (Entry.reaction "A" 9 [] 0) sortFnTotalTime).2.2.1 "10" (by decide),
   (add_leaderboard_entry_frame initialLedger "reaction_game" (.pint 5)
      (Entry.reaction "A" 9 [] 0) sortFnTotalTime).2.2.2⟩


theorem playerEvol_refl (p : Player) : PlayerEvol p p :=
  ⟨rfl, fun _ h => h, fun h => h, fun _ h => Or.inl h⟩

theorem playerEvol_comp {p q r : Player} (h1 : PlayerEvol p q) (h2 : PlayerEvol q r) :
    PlayerEvol p r :=
  ⟨h2.1.trans h1.1,
   fun k hk => h2.2.1 k (h1.2.1 k hk),
   fun hn => h2.2.2.1 (h1.2.2.1 hn),
   fun k hk => (h2.2.2.2 k hk).elim (fun h => (h1.2.2.2 k h)) Or.inr⟩

theorem LedgerEvol.refl (d : Ledger Entry) : LedgerEvol d d :=
  ⟨fun _ h => h, fun n p' h => by simp [h]; exact playerEvol_refl p'⟩

theorem LedgerEvol.trans {a b c : Ledger Entry} (h1 : LedgerEvol a b) (h2 : LedgerEvol b c) :
    LedgerEvol a c := by
  refine ⟨fun n h => h2.1 n (h1.1 n h), fun n p' hp' => ?_⟩
  have hb := h2.2 n p' hp'
  cases hab : dictGet? n b.players with
  | some q =>
      have ha := h1.2 n q hab
      rw [hab] at hb
      exact playerEvol_comp ha hb
  | none =>
      cases haa : dictGet? n a.players with
      | some q =>
          have := h1.1 n (by simp [haa])
          rw [hab] at this
          simp at this
      | none =>
          rw [hab] at hb
          simpa [haa] using hb

theorem LedgerEvol.of_players_eq {a b : Ledger Entry} (h : b.players = a.players) :
    LedgerEvol a b := by
  constructor
  · intro n hn
    rw [h]
    exact hn
  · intro n p' hp'
    rw [h] at hp'
    simp [hp']
    exact playerEvol_refl p'

theorem ledgerEvol_ensure_player (d : Ledger Entry) (name : String) :
    LedgerEvol d (ensure_player d name) := by
  unfold ensure_player
  split
  · exact LedgerEvol.refl d
  · next habs =>
      constructor
      · intro n hn
        simp only [dictGet?_append]
        cases hg : dictGet? n d.players with
        | some q => simp [hg]
        | none => simp [hg] at hn
      · intro n p' hp'
        simp only [dictGet?_append] at hp'
        cases hg : dictGet? n d.players with
        | some q =>
            rw [hg] at hp'
            simp at hp'
            simp [hg, ← hp']
            exact playerEvol_refl q
        | none =>
            rw [hg] at hp'
            simp [dictGet?] at hp'
            rcases hp' with ⟨_, hp'⟩
            simp [hg, hp'.symm]
            exact playerEvol_refl (⟨[], 0⟩ : Player)

theorem ledgerEvol_award (d : Ledger Entry) (player ach_key ach_name : String)
    (hk : ach_key ∈ wiredAchKeys) :
    LedgerEvol d (award_achievement d player ach_key ach_name).1 := by
  unfold award_achievement
  refine LedgerEvol.trans (ledgerEvol_ensure_player d player) ?_
  set d1 := ensure_player d player with hd1
  cases hg : dictGet? player d1.players with
  | none => simp [hg]; exact LedgerEvol.refl d1
  | some p =>
      simp only [hg]
      split
      · exact LedgerEvol.refl d1
      · next hnotmem =>
          constructor
          · intro n hn
            by_cases hnp : n = player
            · subst hnp
              simp [dictGet?_dictSet_self]
            · simpa [dictGet?_dictSet_ne _ _ hnp] using hn
          · intro n p' hp'
            by_cases hnp : n = player
            · subst hnp
              rw [dictGet?_dictSet_self] at hp'
              simp at hp'
              subst hp'
              simp [hg]
              refine ⟨rfl, fun k hkk => by simp [hkk], fun hn => ?_, fun k hkk => ?_⟩
              · simp [List.nodup_append, hn, hnotmem]
              · simp at hkk
                rcases hkk with hkk | hkk
                · exact Or.inl hkk
                · subst hkk; exact Or.inr hk
            · rw [dictGet?_dictSet_ne _ _ hnp] at hp'
              simp [hp']
              exact playerEvol_refl p'

theorem ledgerEvol_awardIf (c : Prop) [Decidable c] (d : Ledger Entry)
    (player ach_key ach_name : String) (hk : ach_key ∈ wiredAchKeys) :
    LedgerEvol d (awardIf c d player ach_key ach_name).1 := by
  unfold awardIf
  split
  · exact ledgerEvol_award d player ach_key ach_name hk
  · exact LedgerEvol.refl d

theorem ledgerEvol_add {K : Type} [LinearOrder K] (d : Ledger Entry) (g : String) (m : PyKey)
    (e : Entry) (f : Entry → K) : LedgerEvol d (add_leaderboard_entry d g m e f) :=
  LedgerEvol.of_players_eq (players_add_leaderboard_entry d g m e f)

theorem ledgerEvol_play_guess (d : Ledger Entry) (s : Session) (o : GuessOutcome) :
    LedgerEvol d (play_guess_the_number d s o).1 := by
  exact ((((((((ledgerEvol_ensure_player d o.player).trans
    (ledgerEvol_awardIf _ _ o.player "gtn_first_try" _ (by decide))).trans
    (ledgerEvol_awardIf _ _ o.player "gtn_speed_demon" _ (by decide))).trans
    (ledgerEvol_awardIf _ _ o.player "gtn_sniper" _ (by decide))).trans
    (ledgerEvol_awardIf _ _ o.player "gtn_persistent" _ (by decide))).trans
    (ledgerEvol_awardIf _ _ o.player "gtn_nightmare" _ (by decide))).trans
    (ledgerEvol_awardIf _ _ o.player "gtn_iron_streak_5" _ (by decide))).trans
    (ledgerEvol_add _ _ _ _ _))

theorem ledgerEvol_play_reaction (d : Ledger Entry) (s : Session) (o : ReactionOutcome) :
    LedgerEvol d (play_reaction d s o).1 := by
  exact (((((ledgerEvol_ensure_player d o.player).trans
    (ledgerEvol_awardIf _ _ o.player "rx_lightning" _ (by decide))).trans
    (ledgerEvol_awardIf _ _ o.player "rx_consistent" _ (by decide))).trans
    (ledgerEvol_awardIf _ _ o.player "rx_marathon" _ (by decide))).trans
    (ledgerEvol_add _ _ _ _ _))

theorem ledgerEvol_play_gibberish (d : Ledger Entry) (s : Session) (o : GibberishOutcome) :
    LedgerEvol d (play_gibberish d s o).1 := by
  by_cases hp : o.typed_tokens = o.targets
  · simp only [play_gibberish, if_pos hp]
    exact (((((ledgerEvol_ensure_player d o.player).trans
      (ledgerEvol_award _ o.player "gt_perfect_accuracy" _ (by decide))).trans
      (ledgerEvol_awardIf _ _ o.player "gt_typing_machine" _ (by decide))).trans
      (ledgerEvol_awardIf _ _ o.player "gt_flawless_streak3" _ (by decide))).trans
      (ledgerEvol_add _ _ _ _ _))
  · simp only [play_gibberish, if_neg hp]
    exact ledgerEvol_ensure_player d o.player

theorem ledgerEvol_nmLoop (player mode_choice : String) (ts : Int) :
    ∀ (c : Nat) (times : List ℚ) (d : Ledger Entry) (s : Session)
      (round_no max_len : Nat) (total_time : ℚ),
      LedgerEvol d (nmLoop d s player mode_choice round_no max_len total_time ts c times).1
  | Nat.succ c, times, d, s, round_no, max_len, total_time => by
      simp only [nmLoop]
      exact (((ledgerEvol_awardIf _ _ player "nm_brain_of_steel" _ (by decide)).trans
        (ledgerEvol_awardIf _ _ player "nm_flash_recall" _ (by decide))).trans
        (ledgerEvol_nmLoop player mode_choice ts c times.tail _ _ _ _ _))
  | 0, times, d, s, round_no, max_len, total_time => by
      simp only [nmLoop]
      exact ledgerEvol_add _ _ _ _ _

theorem ledgerEvol_play_nm (d : Ledger Entry) (s : Session) (o : NMOutcome) :
    LedgerEvol d (play_number_memory d s o).1 := by
  exact (ledgerEvol_ensure_player d o.player).trans
    (ledgerEvol_nmLoop o.player o.mode_choice o.ts o.correct_rounds o.times _ _ _ _ _)

theorem ledgerEvol_play_seq (d : Ledger Entry) (s : Session) (o : SeqOutcome) :
    LedgerEvol d (play_sequence_tap d s o).1 := by
  by_cases hc : o.typed = o.expected
  · simp only [play_sequence_tap, if_pos hc]
    exact (((ledgerEvol_ensure_player d o.player).trans
      (ledgerEvol_awardIf _ _ o.player "st_pattern_pro" _ (by decide))).trans
      (ledgerEvol_add _ _ _ _ _))
  · simp only [play_sequence_tap, if_neg hc]
    exact ledgerEvol_ensure_player d o.player

theorem ledgerEvol_play_wm (d : Ledger Entry) (s : Session) (o : WMOutcome) :
    LedgerEvol d (play_word_memory d s o).1 := by
  exact (((ledgerEvol_ensure_player d o.player).trans
    (ledgerEvol_awardIf _ _ o.player "wm_word_wizard" _ (by decide))).trans
    (ledgerEvol_add _ _ _ _ _))

theorem ledgerEvol_play_ms (d : Ledger Entry) (s : Session) (o : MSOutcome) :
    LedgerEvol d (play_math_speed d s o).1 := by
  exact ((((ledgerEvol_ensure_player d o.player).trans
    (ledgerEvol_awardIf _ _ o.player "ms_lightning_calc" _ (by decide))).trans
    (ledgerEvol_awardIf _ _ o.player "ms_math_genius" _ (by decide))).trans
    (ledgerEvol_add _ _ _ _ _))

theorem ledgerEvol_runPlay (d : Ledger Entry) (s : Session) (st : PlayStep) :
    LedgerEvol d (runPlay (d, s) st).1 := by
  cases st with
  | guess o => exact ledgerEvol_play_guess d s o
  | reaction o => exact ledgerEvol_play_reaction d s o
  | gibberish o => exact ledgerEvol_play_gibberish d s o
  | numberMemory o => exact ledgerEvol_play_nm d s o
  | sequenceTap o => exact ledgerEvol_play_seq d s o
  | wordMemory o => exact ledgerEvol_play_wm d s o
  | mathSpeed o => exact ledgerEvol_play_ms d s o

theorem ledgerEvol_runPlays (steps : List PlayStep) :
    ∀ (d : Ledger Entry) (s : Session), LedgerEvol d (runPlays d s steps).1 := by
  induction steps with
  | nil => exact fun d _ => LedgerEvol.refl d
  | cons st rest ih =>
      intro d s
      simp only [runPlays]
      exact (ledgerEvol_runPlay d s st).trans (ih _ _)

theorem leaderboards_ensure_player {α : Type} (d : Ledger α) (name : String) :
    (ensure_player d name).leaderboards = d.leaderboards := by
  unfold ensure_player
  split <;> rfl

theorem ensure_player_of_isSome {α : Type} {d : Ledger α} {name : String}
    (h : (dictGet? name d.players).isSome) : ensure_player d name = d := by
  unfold ensure_player
  simp [h]

theorem dictGet?_ensure_player_of_some {α : Type} {d : Ledger α} {n m : String} {p : Player}
    (h : dictGet? n d.players = some p) :
    dictGet? n (ensure_player d m).players = some p := by
  unfold ensure_player
  split
  · exact h
  · simp [dictGet?_append, h]

theorem dictGet?_ensure_player_cases {α : Type} {d : Ledger α} {m n : String} {p' : Player}
    (h : dictGet? n (ensure_player d m).players = some p') :
    dictGet? n d.players = some p' ∨ p' = ⟨[], 0⟩ := by
  unfold ensure_player at h
  split at h
  · exact Or.inl h
  · rw [dictGet?_append] at h
    cases hg : dictGet? n d.players with
    | some q =>
        rw [hg] at h
        simp at h
        subst h
        exact Or.inl rfl
    | none =>
        rw [hg] at h
        simp [dictGet?] at h
        exact Or.inr h.2.symm

/-- C2.  A Gibberish Typing play whose typed tokens differ from the
targets, and a Sequence Tap play whose typed string differs from the
expected sequence, leave every leaderboard unchanged, change no existing
player record, create at most the default (achievement-free) record, and
print no achievement notification; the Gibberish play moreover resets the
session's perfect-streak counter to zero. -/
theorem perfection_gate :
    (∀ (d : Ledger Entry) (s : Session) (o : GibberishOutcome),
      o.typed_tokens ≠ o.targets →
      (play_gibberish d s o).1.leaderboards = d.leaderboards ∧
      (∀ n p, dictGet? n d.players = some p →
        dictGet? n (play_gibberish d s o).1.players = some p) ∧
      (∀ n p', dictGet? n (play_gibberish d s o).1.players = some p' →
        dictGet? n d.players = some p' ∨ p' = ⟨[], 0⟩) ∧
      (play_gibberish d s o).2.2 = [] ∧
      (play_gibberish d s o).2.1.perfect_gibberish_streak = 0) ∧
    (∀ (d : Ledger Entry) (s : Session) (o : SeqOutcome),
      o.typed ≠ o.expected →
      (play_sequence_tap d s o).1.leaderboards = d.leaderboards ∧
      (∀ n p, dictGet? n d.players = some p →
        dictGet? n (play_sequence_tap d s o).1.players = some p) ∧
      (∀ n p', dictGet? n (play_sequence_tap d s o).1.players = some p' →
        dictGet? n d.players = some p' ∨ p' = ⟨[], 0⟩) ∧
      (play_sequence_tap d s o).2.2 = []) := by
  constructor
  · intro d s o hne
    have hred : play_gibberish d s o =
        (ensure_player d o.player,
         { s with player := some o.player,
                  games_this_session := setAdd s.games_this_session "gibberish",
                  total_games_played := s.total_games_played + 1,
                  perfect_gibberish_streak := 0 }, []) := by
      simp only [play_gibberish, if_neg hne]
    rw [hred]
    exact ⟨leaderboards_ensure_player d o.player,
      fun n p h => dictGet?_ensure_player_of_some h,
      fun n p' h => dictGet?_ensure_player_cases h, rfl, rfl⟩
  · intro d s o hne
    have hred : play_sequence_tap d s o =
        (ensure_player d o.player,
         { s with player := some o.player,
                  total_games_played := s.total_games_played + 1 }, []) := by
      simp only [play_sequence_tap, if_neg hne]
    rw [hred]
    exact ⟨leaderboards_ensure_player d o.player,
      fun n p h => dictGet?_ensure_player_of_some h,
      fun n p' h => dictGet?_ensure_player_cases h, rfl⟩

/-- Runs `perfection_gate` on a concrete imperfect Gibberish play and a
concrete wrong Sequence Tap play against a ledger holding player
`"Bob"`. -/
theorem perfection_gate_witness :
    (play_gibberish ⟨initialLedger.leaderboards, [("Bob", ⟨["rx_lightning"], 0⟩)]⟩ Session.init
      ⟨"Alice", 5, ["za"], ["xo"], 10, 0⟩).1.leaderboards = initialLedger.leaderboards ∧
    dictGet? "Bob" (play_gibberish ⟨initialLedger.leaderboards, [("Bob", ⟨["rx_lightning"], 0⟩)]⟩
      Session.init ⟨"Alice", 5, ["za"], ["xo"], 10, 0⟩).1.players = some ⟨["rx_lightning"], 0⟩ ∧
    (play_gibberish ⟨initialLedger.leaderboards, [("Bob", ⟨["rx_lightning"], 0⟩)]⟩ Session.init
      ⟨"Alice", 5, ["za"], ["xo"], 10, 0⟩).2.2 = [] ∧
    (play_gibberish ⟨initialLedger.leaderboards, [("Bob", ⟨["rx_lightning"], 0⟩)]⟩ Session.init
      ⟨"Alice", 5, ["za"], ["xo"], 10, 0⟩).2.1.perfect_gibberish_streak = 0 ∧
    (play_sequence_tap ⟨initialLedger.leaderboards, [("Bob", ⟨["rx_lightning"], 0⟩)]⟩ Session.init
      ⟨"Alice", 5, "AB12C", "AB21C", 7, 0⟩).1.leaderboards = initialLedger.leaderboards ∧
    (play_sequence_tap ⟨initialLedger.leaderboards, [("Bob", ⟨["rx_lightning"], 0⟩)]⟩ Session.init
      ⟨"Alice", 5, "AB12C", "AB21C", 7, 0⟩).2.2 = [] :=
  ⟨(perfection_gate.1 _ Session.init ⟨"Alice", 5, ["za"], ["xo"], 10, 0⟩ (by decide)).1,
   (perfection_gate.1 _ Session.init ⟨"Alice", 5, ["za"], ["xo"], 10, 0⟩ (by decide)).2.1
     "Bob" ⟨["rx_lightning"], 0⟩ (by decide),
   (perfection_gate.1 _ Session.init ⟨"Alice", 5, ["za"], ["xo"], 10, 0⟩ (by decide)).2.2.2.1,
   (perfection_gate.1 _ Session.init ⟨"Alice", 5, ["za"], ["xo"], 10, 0⟩ (by decide)).2.2.2.2,
   (perfection_gate.2 _ Session.init ⟨"Alice", 5, "AB12C", "AB21C", 7, 0⟩ (by decide)).1,
   (perfection_gate.2 _ Session.init ⟨"Alice", 5, "AB12C", "AB21C", 7, 0⟩ (by decide)).2.2.2⟩

/-- C3 (divergence evidence).  After ANY sequence of completed plays from
a fresh install, every player record still has `games_played = 0` and
never holds `"cg_grinder_50"`: the code never increments the persisted
`games_played` counter (`ensure_player` initialises it to 0 and no call
site ever updates it) and no call site awards the `cg_*` catalog keys, so
reaching 50 total games cannot make `"cg_grinder_50"` appear. -/
theorem cg_grinder_50_never_awarded (steps : List PlayStep) (s : Session) (n : String)
    (p : Player) (hp : dictGet? n (runPlays initialLedger s steps).1.players = some p) :
    p.games_played = 0 ∧ "cg_grinder_50" ∉ p.achievements := by
  have h := (ledgerEvol_runPlays steps initialLedger s).2 n p hp
  have hnone : dictGet? n (initialLedger : Ledger Entry).players = none := rfl
  rw [hnone] at h
  simp only [Option.getD_none] at h
  refine ⟨h.1, fun hk => ?_⟩
  rcases h.2.2.2 _ hk with hmem | hmem
  · simp at hmem
  · revert hmem
    decide

/-- Runs `cg_grinder_50_never_awarded` on a concrete completed play by
`"Alice"`. -/
theorem cg_grinder_50_never_awarded_witness :
    (⟨[], 0⟩ : Player).games_played = 0 ∧
    "cg_grinder_50" ∉ (⟨[], 0⟩ : Player).achievements :=
  cg_grinder_50_never_awarded [PlayStep.guess ⟨"Alice", "3", 4, 10, 0⟩] Session.init
    "Alice" ⟨[], 0⟩ (by decide)

/-- C4.  Awarding an achievement is idempotent: if the key is already in
the player's achievement list, `award_achievement` returns the ledger
unchanged and emits no notification.  Consequently, across any sequence
of plays, achievement lists stay duplicate-free (each key at most once)
and keys are never removed. -/
theorem award_achievement_idempotent :
    (∀ (d : Ledger Entry) (player ach_key ach_name : String) (p : Player),
      dictGet? player d.players = some p → ach_key ∈ p.achievements →
      award_achievement d player ach_key ach_name = (d, [])) ∧
    (∀ (steps : List PlayStep) (d : Ledger Entry) (s : Session),
      (∀ n p, dictGet? n d.players = some p → p.achievements.Nodup) →
      ∀ n p', dictGet? n (runPlays d s steps).1.players = some p' →
        p'.achievements.Nodup) ∧
    (∀ (steps : List PlayStep) (d : Ledger Entry) (s : Session) (n : String) (p : Player)
      (k : String), dictGet? n d.players = some p → k ∈ p.achievements →
      ∃ p', dictGet? n (runPlays d s steps).1.players = some p' ∧ k ∈ p'.achievements) := by
  refine ⟨?_, ?_, ?_⟩
  · intro d player ach_key ach_name p hp hmem
    have he : ensure_player d player = d := ensure_player_of_isSome (by simp [hp])
    simp only [award_achievement, he, hp, if_pos hmem]
  · intro steps d s hnodup n p' hp'
    have h := (ledgerEvol_runPlays steps d s).2 n p' hp'
    cases hg : dictGet? n d.players with
    | some q =>
        rw [hg] at h
        exact h.2.2.1 (hnodup n q hg)
    | none =>
        rw [hg] at h
        exact h.2.2.1 List.nodup_nil
  · intro steps d s n p k hp hk
    have hsome := (ledgerEvol_runPlays steps d s).1 n (by simp [hp])
    cases hp' : dictGet? n (runPlays d s steps).1.players with
    | none => rw [hp'] at hsome; simp at hsome
    | some p' =>
        have h := (ledgerEvol_runPlays steps d s).2 n p' hp'
        rw [hp] at h
        exact ⟨p', rfl, h.2.1 k hk⟩

/-- Runs `award_achievement_idempotent` against a ledger in which
`"Alice"` already holds `"gtn_first_try"`: the re-award is a no-op with
no notification, and after a further concrete play the key is still held
exactly once. -/
theorem award_achievement_idempotent_witness :
    award_achievement (⟨initialLedger.leaderboards, [("Alice", ⟨["gtn_first_try"], 0⟩)]⟩ :
        Ledger Entry) "Alice" "gtn_first_try" "Lucky First Guess (1 attempt)" =
      ((⟨initialLedger.leaderboards, [("Alice", ⟨["gtn_first_try"], 0⟩)]⟩ : Ledger Entry), []) ∧
    (⟨["gtn_first_try"], 0⟩ : Player).achievements.Nodup ∧
    (∃ p', dictGet? "Alice"
        (runPlays ⟨initialLedger.leaderboards, [("Alice", ⟨["gtn_first_try"], 0⟩)]⟩ Session.init
          [PlayStep.guess ⟨"Alice", "3", 4, 10, 0⟩]).1.players = some p' ∧
      "gtn_first_try" ∈ p'.achievements) :=
  ⟨award_achievement_idempotent.1 _ "Alice" "gtn_first_try" "Lucky First Guess (1 attempt)"
     ⟨["gtn_first_try"], 0⟩ (by decide) (by decide),
   award_achievement_idempotent.2.1 [PlayStep.guess ⟨"Alice", "3", 4, 10, 0⟩]
     ⟨initialLedger.leaderboards, [("Alice", ⟨["gtn_first_try"], 0⟩)]⟩ Session.init
     (by
       intro n p h
       by_cases hn : n = "Alice"
       · subst hn
         simp [dictGet?] at h
         simp [← h]
       · simp [dictGet?, Ne.symm hn] at h)
     "Alice" ⟨["gtn_first_try"], 0⟩ (by decide),
   award_achievement_idempotent.2.2 [PlayStep.guess ⟨"Alice", "3", 4, 10, 0⟩]
     ⟨initialLedger.leaderboards, [("Alice", ⟨["gtn_first_try"], 0⟩)]⟩ Session.init
     "Alice" ⟨["gtn_first_try"], 0⟩ "gtn_first_try" (by decide) (by decide)⟩

/-- The session after the Number Memory round loop: `total_games_played`
grows once per correct round, every other counter (and the distinct-games
set) is untouched. -/
theorem nmLoop_session (player mode_choice : String) (ts : Int) :
    ∀ (c : Nat) (times : List ℚ) (d : Ledger Entry) (s : Session)
      (round_no max_len : Nat) (total_time : ℚ),
      (nmLoop d s player mode_choice round_no max_len total_time ts c times).2.1 =
        { s with total_games_played := s.total_games_played + c }
  | 0, times, d, s, rn, ml, tt => rfl
  | Nat.succ c, times, d, s, rn, ml, tt => by
      simp only [nmLoop]
      rw [nmLoop_session player mode_choice ts c times.tail]
      simp
      omega

/-- C9 (amended).  The session-aggregate effect of each completed play:
Guess-the-Number, Reaction and Gibberish Typing add their game identifier
to the distinct-games set and increment the total-played counter by one
(Guess also bumps its win streak, Gibberish its perfect streak or resets
it); Sequence Tap, Word Memory and Math Speed increment the counter by
one but do NOT touch the distinct-games set; Number Memory touches
neither the set nor any streak and increments the counter once per
correct round — zero times when the first recall fails — rather than
once per play. -/
theorem recordPlay_session_effects :
    (∀ (d : Ledger Entry) (s : Session) (o : GuessOutcome),
      (play_guess_the_number d s o).2.1 =
        { s with player := some o.player,
                 games_this_session := setAdd s.games_this_session "guess",
                 total_games_played := s.total_games_played + 1,
                 consecutive_gtn_wins := s.consecutive_gtn_wins + 1 }) ∧
    (∀ (d : Ledger Entry) (s : Session) (o : ReactionOutcome),
      (play_reaction d s o).2.1 =
        { s with player := some o.player,
                 games_this_session := setAdd s.games_this_session "reaction",
                 total_games_played := s.total_games_played + 1 }) ∧
    (∀ (d : Ledger Entry) (s : Session) (o : GibberishOutcome),
      (play_gibberish d s o).2.1 =
        if o.typed_tokens = o.targets then
          { s with player := some o.player,
                   games_this_session := setAdd s.games_this_session "gibberish",
                   total_games_played := s.total_games_played + 1,
                   perfect_gibberish_streak := s.perfect_gibberish_streak + 1 }
        else
          { s with player := some o.player,
                   games_this_session := setAdd s.games_this_session "gibberish",
                   total_games_played := s.total_games_played + 1,
                   perfect_gibberish_streak := 0 }) ∧
    (∀ (d : Ledger Entry) (s : Session) (o : NMOutcome),
      (play_number_memory d s o).2.1 =
        { s with player := some o.player,
                 total_games_played := s.total_games_played + o.correct_rounds }) ∧
    (∀ (d : Ledger Entry) (s : Session) (o : SeqOutcome),
      (play_sequence_tap d s o).2.1 =
        { s with player := some o.player,
                 total_games_played := s.total_games_played + 1 }) ∧
    (∀ (d : Ledger Entry) (s : Session) (o : WMOutcome),
      (play_word_memory d s o).2.1 =
        { s with player := some o.player,
                 total_games_played := s.total_games_played + 1 }) ∧
    (∀ (d : Ledger Entry) (s : Session) (o : MSOutcome),
      (play_math_speed d s o).2.1 =
        { s with player := some o.player,
                 total_games_played := s.total_games_played + 1 }) := by
  refine ⟨fun d s o => rfl, fun d s o => rfl, fun d s o => ?_, fun d s o => ?_,
    fun d s o => rfl, fun d s o => rfl, fun d s o => rfl⟩
  · by_cases h : o.typed_tokens = o.targets
    · simp only [play_gibberish, if_pos h]
    · simp only [play_gibberish, if_neg h]
  · simp only [play_number_memory]
    rw [nmLoop_session]

/-- C9 counterexample.  A Number Memory play that fails on the first
recall is a completed play of one of the seven games, yet the session
total-played counter is NOT incremented (it stays 0) and no game
identifier is added to the distinct-games set. -/
theorem recordPlay_counterexample :
    ¬ ((play_number_memory initialLedger Session.init
          ⟨"Alice", "hard_6", 0, [3], 0⟩).2.1.total_games_played =
        Session.init.total_games_played + 1) ∧
    (play_number_memory initialLedger Session.init
      ⟨"Alice", "hard_6", 0, [3], 0⟩).2.1.games_this_session = [] := by
  constructor
  · decide
  · decide

theorem dictGet?_dictSetdefault_mono {κ β : Type} [DecidableEq κ] {k k' : κ} (v : β)
    {d : List (κ × β)} (h : (dictGet? k d).isSome) :
    (dictGet? k (dictSetdefault k' v d)).isSome := by
  unfold dictSetdefault
  split
  · exact h
  · rw [dictGet?_append]
    cases hg : dictGet? k d with
    | some w => simp [hg]
    | none => simp [hg] at h

theorem dictGet?_dictSetdefault_self {κ β : Type} [DecidableEq κ] (k : κ) (v : β)
    (d : List (κ × β)) :
    dictGet? k (dictSetdefault k v d) = some ((dictGet? k d).getD v) := by
  unfold dictSetdefault
  cases hg : dictGet? k d with
  | some w => simp [hg]
  | none => simp [hg, dictGet?_append, dictGet?]

theorem foldl_dictSetdefault_isSome (v : JVal) :
    ∀ (keys : List String) (gs : List (String × JVal)) (k : String),
      k ∈ keys ∨ (dictGet? k gs).isSome →
      (dictGet? k (keys.foldl (fun gs k' => dictSetdefault k' v gs) gs)).isSome := by
  intro keys
  induction keys with
  | nil =>
      intro gs k h
      simpa using h.resolve_left (by simp)
  | cons k0 rest ih =>
      intro gs k h
      simp only [List.foldl_cons]
      refine ih (dictSetdefault k0 v gs) k ?_
      rcases h with h | h
      · rcases List.mem_cons.mp h with h | h
        · subst h
          exact Or.inr (dictGet?_dictSetdefault_isSome k v gs)
        · exact Or.inl h
      · exact Or.inr (dictGet?_dictSetdefault_mono v h)

theorem foldl_dictSetdefault_of_all_isSome (v : JVal) :
    ∀ (keys : List String) (gs : List (String × JVal)),
      (∀ k ∈ keys, (dictGet? k gs).isSome) →
      keys.foldl (fun gs k' => dictSetdefault k' v gs) gs = gs := by
  intro keys
  induction keys with
  | nil => intro gs _; rfl
  | cons k0 rest ih =>
      intro gs h
      simp only [List.foldl_cons]
      rw [dictSetdefault_of_isSome v (h k0 (by simp))]
      exact ih gs fun k hk => h k (by simp [hk])

/-- C5 (amended).  `read_save` recovers on a missing file, on unparseable
content, and on any parsed document that is a JSON object whose
`"leaderboards"` value — when present — is itself an object: the result
then carries all 7 fixed game keys under `"leaderboards"` and a
`"players"` key equal to `{}` when it was absent and to its original
value otherwise.  (On a parsed non-object document, or one whose
`"leaderboards"` value is a non-object, the `setdefault` attribute access
raises `AttributeError` instead — see the counterexample.) -/
theorem read_save_repairs :
    read_save .missing = .ok baseSave ∧
    read_save .unparseable = .ok baseSave ∧
    (∀ k ∈ gameKeys, (dictGet? k (gameKeys.map fun kk => (kk, JVal.jobj []))).isSome) ∧
    dictGet? "players" [("leaderboards", JVal.jobj (gameKeys.map fun kk => (kk, JVal.jobj []))),
      ("players", JVal.jobj [])] = some (.jobj []) ∧
    (∀ kvs0 : List (String × JVal),
      (∀ lv, dictGet? "leaderboards" kvs0 = some lv → ∃ gs0, lv = .jobj gs0) →
      ∃ kvs', read_save (.parsed (.jobj kvs0)) = .ok (.jobj kvs') ∧
        (∃ gs, dictGet? "leaderboards" kvs' = some (.jobj gs) ∧
          ∀ k ∈ gameKeys, (dictGet? k gs).isSome) ∧
        dictGet? "players" kvs' = some ((dictGet? "players" kvs0).getD (.jobj []))) := by
  refine ⟨rfl, rfl, by decide, rfl, ?_⟩
  intro kvs0 hlv
  have hlb : ∃ gs0, dictGet? "leaderboards" (dictSetdefault "leaderboards" (.jobj []) kvs0) =
      some (.jobj gs0) := by
    unfold dictSetdefault
    cases hg : dictGet? "leaderboards" kvs0 with
    | some lv =>
        obtain ⟨gs0, rfl⟩ := hlv lv hg
        simp [hg]
    | none =>
        simp [hg, dictGet?_append, dictGet?]
  obtain ⟨gs0, hgs0⟩ := hlb
  refine ⟨dictSetdefault "players" (.jobj [])
      (dictSet "leaderboards"
        (.jobj (gameKeys.foldl (fun gs k => dictSetdefault k (.jobj []) gs) gs0))
        (dictSetdefault "leaderboards" (.jobj []) kvs0)), ?_, ?_, ?_⟩
  · show ensureKeys (.jobj kvs0) = _
    simp only [ensureKeys]
    rw [hgs0]
  · refine ⟨gameKeys.foldl (fun gs k => dictSetdefault k (.jobj []) gs) gs0, ?_, ?_⟩
    · rw [dictGet?_dictSetdefault_ne _ _ (by decide), dictGet?_dictSet_self]
    · intro k hk
      exact foldl_dictSetdefault_isSome _ gameKeys gs0 k (Or.inl hk)
  · have hne : ("players" : String) ≠ "leaderboards" := by decide
    have h2 : dictGet? "players"
        (dictSet "leaderboards"
          (JVal.jobj (gameKeys.foldl (fun gs k => dictSetdefault k (.jobj []) gs) gs0))
          (dictSetdefault "leaderboards" (.jobj []) kvs0)) = dictGet? "players" kvs0 := by
      rw [dictGet?_dictSet_ne _ _ hne, dictGet?_dictSetdefault_ne _ _ hne]
    rw [dictGet?_dictSetdefault_self, h2]

/-- C5 counterexample.  A backing document that parses to
`{"leaderboards": 5}` — a document missing the `"players"` key — makes
`read_save` raise `AttributeError` (at
`data["leaderboards"].setdefault(key, {})`) instead of returning a
repaired ledger. -/
theorem read_save_raises_counterexample :
    read_save (.parsed (.jobj [("leaderboards", .jnum 5)])) = .error "AttributeError" :=
  rfl

/-- Runs the parsed-document branch of `read_save_repairs` on a concrete
legacy document `{"x": 1}` with no `"leaderboards"` and no `"players"`
key. -/
theorem read_save_repairs_witness :
    ∃ kvs', read_save (.parsed (.jobj [("x", .jnum 1)])) = .ok (.jobj kvs') ∧
      (∃ gs, dictGet? "leaderboards" kvs' = some (.jobj gs) ∧
        ∀ k ∈ gameKeys, (dictGet? k gs).isSome) ∧
      dictGet? "players" kvs' =
        some ((dictGet? "players" [(("x" : String), JVal.jnum 1)]).getD (.jobj [])) :=
  read_save_repairs.2.2.2.2 [("x", .jnum 1)]
    (fun lv h => by simp [dictGet?] at h)

/-- C7.  `save` followed by `load` is the identity on every ledger
document: for any JSON object that has a `"leaderboards"` object carrying
all 7 game keys and a `"players"` key — the invariant every in-memory
ledger satisfies — `write_save` then `read_save` yields the very same
document, leaderboard entries in the same order and player records
intact.  The hypotheses only constrain key lookups, never key positions,
so the round-trip holds regardless of the insertion order of the keys
(see the witness, whose document lists `"players"` first). -/
theorem save_load_roundtrip (kvs : List (String × JVal))
    (hlb : ∃ gs, dictGet? "leaderboards" kvs = some (.jobj gs) ∧
      ∀ k ∈ gameKeys, (dictGet? k gs).isSome)
    (hpl : (dictGet? "players" kvs).isSome) :
    saveThenLoad (.jobj kvs) = .ok (.jobj kvs) := by
  obtain ⟨gs, hgs, hall⟩ := hlb
  show ensureKeys (.jobj kvs) = _
  simp only [ensureKeys]
  rw [dictSetdefault_of_isSome _ (by simp [hgs])]
  simp only [hgs]
  rw [foldl_dictSetdefault_of_all_isSome _ gameKeys gs hall, dictSet_of_get_eq hgs,
    dictSetdefault_of_isSome _ hpl]

/-- Runs `save_load_roundtrip` on a concrete populated ledger document
whose keys are listed in the opposite of the usual insertion order
(`"players"` first). -/
theorem save_load_roundtrip_witness :
    saveThenLoad (.jobj
      [("players", .jobj [("Alice", .jobj [("achievements", .jarr [.jstr "gtn_first_try"]),
          ("games_played", .jnum 0)])]),
       ("leaderboards", .jobj
         [("math_speed", .jobj [("10", .jarr [.jnum 7])]),
          ("guess_the_number", .jobj []), ("reaction_game", .jobj []),
          ("gibberish_typing", .jobj []), ("number_memory", .jobj []),
          ("sequence_tap", .jobj []), ("word_memory", .jobj [])])]) =
    .ok (.jobj
      [("players", .jobj [("Alice", .jobj [("achievements", .jarr [.jstr "gtn_first_try"]),
          ("games_played", .jnum 0)])]),
       ("leaderboards", .jobj
         [("math_speed", .jobj [("10", .jarr [.jnum 7])]),
          ("guess_the_number", .jobj []), ("reaction_game", .jobj []),
          ("gibberish_typing", .jobj []), ("number_memory", .jobj []),
          ("sequence_tap", .jobj []), ("word_memory", .jobj [])])]) :=
  save_load_roundtrip _
    ⟨[("math_speed", .jobj [("10", .jarr [.jnum 7])]),
      ("guess_the_number", .jobj []), ("reaction_game", .jobj []),
      ("gibberish_typing", .jobj []), ("number_memory", .jobj []),
      ("sequence_tap", .jobj []), ("word_memory", .jobj [])], rfl, by decide⟩
    (by decide)

theorem filter_orderedInsert {α K : Type} [LinearOrder K] (f : α → K) (x : α) (kv : K) :
    ∀ l : List α, (List.orderedInsert (keyLE f) x l).filter (fun a => decide (f a = kv)) =
      if f x = kv then x :: l.filter (fun a => decide (f a = kv))
      else l.filter (fun a => decide (f a = kv))
  | [] => by
      by_cases hx : f x = kv <;> simp [List.orderedInsert, hx]
  | y :: ys => by
      simp only [List.orderedInsert]
      by_cases hle : keyLE f x y
      · rw [if_pos hle]
        by_cases hx : f x = kv <;> simp [List.filter_cons, hx]
      · rw [if_neg hle]
        by_cases hx : f x = kv
        · have hy : ¬(f y = kv) := fun hy => hle (le_of_eq (hx.trans hy.symm))
          simp [List.filter_cons, hx, hy, filter_orderedInsert f x kv ys]
        · by_cases hy : f y = kv <;>
            simp [List.filter_cons, hx, hy, filter_orderedInsert f x kv ys]

/-- Stability of the sort used by `add_leaderboard_entry`: restricted to
any fixed key value, the sorted sequence lists the entries in their
original (insertion) order. -/
theorem filter_pySortByKey {α K : Type} [LinearOrder K] (f : α → K) (kv : K) :
    ∀ l : List α, (pySortByKey f l).filter (fun a => decide (f a = kv)) =
      l.filter (fun a => decide (f a = kv))
  | [] => rfl
  | x :: xs => by
      show (List.orderedInsert (keyLE f) x (pySortByKey f xs)).filter _ = _
      rw [filter_orderedInsert]
      by_cases hx : f x = kv <;>
        simp [List.filter_cons, hx, filter_pySortByKey f kv xs]

/-- C6 counterexample.  Two distinct Reaction entries with the same
`total_time` tie on every declared key (Reaction has no secondary key);
inserting them in the two possible orders stores the two different
sequences, so the stored relative order of entries tying on all declared
keys DOES depend on insertion order (Python's stable sort keeps it),
contradicting the claim. -/
theorem comparator_insertion_order_counterexample :
    sortFnTotalTime (Entry.reaction "A" 1 [] 0) = sortFnTotalTime (Entry.reaction "B" 1 [] 1) ∧
    Entry.reaction "A" 1 [] 0 ≠ Entry.reaction "B" 1 [] 1 ∧
    boardAt (add_leaderboard_entry
        (add_leaderboard_entry initialLedger "reaction_game" (.pint 5)
          (Entry.reaction "A" 1 [] 0) sortFnTotalTime)
        "reaction_game" (.pint 5) (Entry.reaction "B" 1 [] 1) sortFnTotalTime)
      "reaction_game" "5" = [Entry.reaction "A" 1 [] 0, Entry.reaction "B" 1 [] 1] ∧
    boardAt (add_leaderboard_entry
        (add_leaderboard_entry initialLedger "reaction_game" (.pint 5)
          (Entry.reaction "B" 1 [] 1) sortFnTotalTime)
        "reaction_game" (.pint 5) (Entry.reaction "A" 1 [] 0) sortFnTotalTime)
      "reaction_game" "5" = [Entry.reaction "B" 1 [] 1, Entry.reaction "A" 1 [] 0] :=
  ⟨rfl, by decide, by decide, by decide⟩

/-- C6 (amended).  Every mode's comparator is the total preorder induced
by its key function (totality below); entries tying on the primary key
but differing on the declared secondary key are ordered strictly by that
secondary key (for the three two-key games); and entries tying on ALL
declared keys keep their insertion order — the sort is stable
(`filter_pySortByKey`) — so the stored order is a deterministic function
of the insertion sequence, though not independent of it. -/
theorem comparator_tiebreak_amended :
    (∀ a b : Entry, keyLE sortFnGuess a b ∨ keyLE sortFnGuess b a) ∧
    (∀ a b : Entry, keyLE sortFnTotalTime a b ∨ keyLE sortFnTotalTime b a) ∧
    (∀ a b : Entry, keyLE sortFnNM a b ∨ keyLE sortFnNM b a) ∧
    (∀ a b : Entry, keyLE sortFnWM a b ∨ keyLE sortFnWM b a) ∧
    (∀ (n1 n2 : String) (att : Nat) (t1 t2 : ℚ) (ts1 ts2 : Int), t1 < t2 →
      sortFnGuess (.guess n1 att t1 ts1) < sortFnGuess (.guess n2 att t2 ts2)) ∧
    (∀ (n1 n2 : String) (ml : Nat) (t1 t2 : ℚ) (ts1 ts2 : Int), t1 < t2 →
      sortFnNM (.nm n1 ml t1 ts1) < sortFnNM (.nm n2 ml t2 ts2)) ∧
    (∀ (n1 n2 : String) (c : Nat) (t1 t2 : ℚ) (ts1 ts2 : Int), t1 < t2 →
      sortFnWM (.wm n1 c t1 ts1) < sortFnWM (.wm n2 c t2 ts2)) ∧
    (∀ (l : List Entry) (kv : ℚ),
      (pySortByKey sortFnTotalTime l).filter (fun a => decide (sortFnTotalTime a = kv)) =
        l.filter (fun a => decide (sortFnTotalTime a = kv))) :=
  ⟨fun a b => le_total (sortFnGuess a) (sortFnGuess b),
   fun a b => le_total (sortFnTotalTime a) (sortFnTotalTime b),
   fun a b => le_total (sortFnNM a) (sortFnNM b),
   fun a b => le_total (sortFnWM a) (sortFnWM b),
   fun _ _ _ _ _ _ _ ht => Prod.Lex.right _ ht,
   fun _ _ _ _ _ _ _ ht => Prod.Lex.right _ ht,
   fun _ _ _ _ _ _ _ ht => Prod.Lex.right _ ht,
   fun l kv => filter_pySortByKey sortFnTotalTime kv l⟩

/-- Runs the tie-break parts of `comparator_tiebreak_amended` on concrete
entries with equal primary keys and distinct secondary keys, and the
stability part on a concrete tied list. -/
theorem comparator_tiebreak_amended_witness :
    (keyLE sortFnTotalTime (Entry.reaction "A" 1 [] 0) (Entry.reaction "B" 2 [] 0) ∨
      keyLE sortFnTotalTime (Entry.reaction "B" 2 [] 0) (Entry.reaction "A" 1 [] 0)) ∧
    sortFnGuess (.guess "A" 3 1 0) < sortFnGuess (.guess "B" 3 2 0) ∧
    sortFnNM (.nm "A" 6 1 0) < sortFnNM (.nm "B" 6 2 0) ∧
    sortFnWM (.wm "A" 4 1 0) < sortFnWM (.wm "B" 4 2 0) ∧
    (pySortByKey sortFnTotalTime [Entry.reaction "A" 1 [] 0, Entry.reaction "B" 1 [] 1]).filter
        (fun a => decide (sortFnTotalTime a = 1)) =
      [Entry.reaction "A" 1 [] 0, Entry.reaction "B" 1 [] 1].filter
        (fun a => decide (sortFnTotalTime a = 1)) :=
  ⟨comparator_tiebreak_amended.2.1 (Entry.reaction "A" 1 [] 0) (Entry.reaction "B" 2 [] 0),
   comparator_tiebreak_amended.2.2.2.2.1 "A" "B" 3 1 2 0 0 (by decide),
   comparator_tiebreak_amended.2.2.2.2.2.1 "A" "B" 6 1 2 0 0 (by decide),
   comparator_tiebreak_amended.2.2.2.2.2.2.1 "A" "B" 4 1 2 0 0 (by decide),
   comparator_tiebreak_amended.2.2.2.2.2.2.2
     [Entry.reaction "A" 1 [] 0, Entry.reaction "B" 1 [] 1] 1⟩

/-- C8.  Inserting into a full (100-entry, sorted) Number Memory
`"hard_6"` board an entry that ranks strictly worst under the mode's
comparator (smaller `max_length`, or equal `max_length` with larger
`total_time`, than every stored entry — i.e. strictly greater sort key):
the sorted pre-truncation sequence is exactly the old board with the new
entry appended last, so the lowest-ranked entry after the insert is the
new one, and truncation to `TOP_N = 100` drops exactly it, leaving the
other 100 entries in place and in order. -/
theorem nm_full_board_drops_worst (d : Ledger Entry) (lb : List Entry) (e : Entry)
    (hboard : boardAt d "number_memory" "hard_6" = lb)
    (hlen : lb.length = 100)
    (hsorted : lb.Sorted (keyLE sortFnNM))
    (hworst : ∀ x ∈ lb, sortFnNM x < sortFnNM e) :
    pySortByKey sortFnNM (lb ++ [e]) = lb ++ [e] ∧
    boardAt (add_leaderboard_entry d "number_memory" (.pstr "hard_6") e sortFnNM)
      "number_memory" "hard_6" = lb := by
  have hsorted2 : (lb ++ [e]).Sorted (keyLE sortFnNM) := by
    rw [List.Sorted, List.pairwise_append]
    refine ⟨hsorted, by simp, fun a ha b hb => ?_⟩
    simp only [List.mem_singleton] at hb
    subst hb
    exact le_of_lt (hworst a ha)
  have hsort_eq : pySortByKey sortFnNM (lb ++ [e]) = lb ++ [e] :=
    pySortByKey_of_sorted hsorted2
  refine ⟨hsort_eq, ?_⟩
  have h3 := boardAt_add_self d "number_memory" (.pstr "hard_6") e sortFnNM
  simp only [PyKey.toStr] at h3
  rw [h3, hboard, hsort_eq]
  have h4 : TOP_N = lb.length := by rw [hlen]; rfl
  rw [h4, List.take_left]

/-- Runs `nm_full_board_drops_worst` on a concrete full board: 100
entries with `max_length` 100 down to 1, and a new entry with
`max_length = 0`. -/
theorem nm_full_board_drops_worst_witness :
    pySortByKey sortFnNM
        ((List.range 100).map (fun i => Entry.nm "p" (100 - i) 1 0) ++ [Entry.nm "q" 0 5 0]) =
      (List.range 100).map (fun i => Entry.nm "p" (100 - i) 1 0) ++ [Entry.nm "q" 0 5 0] ∧
    boardAt (add_leaderboard_entry
        (⟨[("number_memory",
            [("hard_6", (List.range 100).map fun i => Entry.nm "p" (100 - i) 1 0)])], []⟩ :
          Ledger Entry)
        "number_memory" (.pstr "hard_6") (Entry.nm "q" 0 5 0) sortFnNM)
      "number_memory" "hard_6" = (List.range 100).map fun i => Entry.nm "p" (100 - i) 1 0 :=
  nm_full_board_drops_worst
    ⟨[("number_memory", [("hard_6", (List.range 100).map fun i => Entry.nm "p" (100 - i) 1 0)])],
     []⟩
    ((List.range 100).map fun i => Entry.nm "p" (100 - i) 1 0) (Entry.nm "q" 0 5 0)
    rfl (by decide) (by decide) (by decide)
